import Mathlib

/-!
# Verification of the Netlify DNS provider adapter (dnscontrol)

A shallow embedding of `providers/netlify/netlifyProvider.go`: the record
translator (`recordToNative`, `toReq`), the observed-state fetcher
(`getRecords`, `GetZoneRecords`) and the correction generator
(`GetDomainCorrections`), together with theorems about the ordering of the
produced corrections, the FQDN normalization of targets, error propagation
and the fetch semantics.

Go machine integers are embedded as `Int` (for the native API's `int64`
fields) and `Nat` (for the canonical model's unsigned fields); Go's
narrowing conversions `uint32(x)`, `uint16(x)`, `uint8(x)` on an `int64`
keep the low bits, embedded as `(x % 2^w).toNat` (Lean's `Int.emod` is
already nonnegative for a positive modulus). Fallible Go functions
returning `(T, error)` are embedded as `Except String T`.
-/

set_option autoImplicit false

namespace Netlify

/-- The provider-native DNS record (`netlifyModels.DNSRecord`): the fields
the adapter reads plus those its creation requests write. All numeric
fields are `int64` in the native schema. -/
structure DNSRecord where
  id : String
  hostname : String
  rtype : String
  value : String
  ttl : Int
  priority : Int
  weight : Int
  port : Int
  flag : Int
  tag : String
  managed : Bool
  deriving Repr, DecidableEq

/-- A provider-native DNS zone (`netlifyModels.DNSZone`): identifier and name. -/
structure DNSZone where
  id : String
  name : String
  deriving Repr, DecidableEq

/-- The canonical record model (`models.RecordConfig`) restricted to the
fields the adapter touches. `name` is the label relative to the zone apex
(set through `SetLabelFromFQDN`), `target` the payload string (set through
`SetTarget`). `original` is the back reference to the native record the
canonical record was derived from (`nil` embedded as `none`). -/
structure RecordConfig where
  rtype : String := ""
  name : String := ""
  target : String := ""
  ttl : Nat := 0
  mxPreference : Nat := 0
  srvPriority : Nat := 0
  srvWeight : Nat := 0
  srvPort : Nat := 0
  caaTag : String := ""
  caaFlag : Nat := 0
  original : Option DNSRecord := none
  deriving Repr, DecidableEq

/-- The provider-native creation request (`netlifyModels.DNSRecordCreate`):
exactly the fields `toReq` populates (note: no TTL field is sent). -/
structure DNSRecordCreate where
  rtype : String
  hostname : String
  value : String
  priority : Int
  weight : Int
  port : Int
  flag : Int
  tag : String
  deriving Repr, DecidableEq

/-- Modelled from the spec: `RecordConfig.SetLabelFromFQDN` of the record
model (the `models` package is not under src/) stores the label relative to
the zone apex, `"@"` for the apex itself (spec §3: "`name`: label relative
to zone apex, or `"@"` for apex itself"). -/
def setLabelFromFQDN (fqdn domain : String) : String :=
  if fqdn = domain then "@"
  else if fqdn.endsWith ("." ++ domain) then
    fqdn.dropRight (domain.length + 1)
  else fqdn

/-- Modelled from the spec: `dnsutil.AddOrigin` (external library) re-attaches
the zone origin to a relative name (spec §4.1: "Hostname is the canonical
name re-qualified against the zone name"): an already fully qualified name
is kept, `"@"` becomes the origin, anything else gets the origin appended. -/
def addOrigin (s origin : String) : String :=
  if s.endsWith "." then s
  else if s = "@" then origin
  else s ++ "." ++ origin

/-- Go's `uint32(x)` / `uint16(x)` / `uint8(x)` narrowing of an `int64`:
keep the low `w` bits. -/
def toUnsigned (w : Nat) (x : Int) : Nat := (x % (2 ^ w : Nat)).toNat

/-- `recordToNative(domain, r)`: converts a provider-native record to the
canonical model. Rejects records not managed by Netlify; for the relational
types CNAME/MX/NS/SRV it rewrites a `"@"` value to the zone name and a bare
`"."` value to the empty string and then (in every one of those cases)
appends a trailing dot. The native `Priority` feeds both `MxPreference` and
`SrvPriority`; `SrvWeight` and `SrvPort` are left at their zero value. The
TXT branch (`SetTargetTXTString`, `models` package not under src/)
re-stores the same target string, embedded as the identity on the target
field. -/
def recordToNative (domain : String) (r : DNSRecord) : Except String RecordConfig :=
  if !r.managed then
    .error (r.hostname ++ " is not managed by Netlify")
  else
    let name := r.hostname
    let target :=
      if r.rtype = "CNAME" ∨ r.rtype = "MX" ∨ r.rtype = "NS" ∨ r.rtype = "SRV" then
        (if r.value = "@" then domain
         else if r.value = "." then ""
         else r.value) ++ "."
      else r.value
    let t : RecordConfig :=
      { rtype := r.rtype
        ttl := toUnsigned 32 r.ttl
        mxPreference := toUnsigned 16 r.priority
        srvPriority := toUnsigned 16 r.priority
        original := some r
        caaTag := r.tag
        caaFlag := toUnsigned 8 r.flag
        name := setLabelFromFQDN name domain
        target := target }
    .ok t

/-- `toReq(dc, rc)`: builds the provider-native creation request from a
canonical record. `Priority` is taken from `SrvPriority` (never from
`MxPreference`); `Value` is the target field (`GetTargetField`). -/
def toReq (dcName : String) (rc : RecordConfig) : DNSRecordCreate :=
  { rtype := rc.rtype
    hostname := addOrigin rc.name dcName
    value := rc.target
    priority := Int.ofNat rc.srvPriority
    weight := Int.ofNat rc.srvWeight
    port := Int.ofNat rc.srvPort
    flag := Int.ofNat rc.caaFlag
    tag := rc.caaTag }

/-! ## Observed-state fetcher -/

/-- The provider API surface the fetcher calls: the zone-list call and the
records-list call parameterized by zone identifier. Each call may fail
(`TransportError`, embedded as the `Except` error). -/
structure NetlifyAPI where
  getDNSZones : Except String (List DNSZone)
  getDNSRecords : String → Except String (List DNSRecord)

/-- The zone loop of `getRecords`: for each zone whose name equals the
requested name, fetch its records (propagating a fetch error) and append
them to the accumulator. -/
def collectZoneRecords (api : NetlifyAPI) (name : String) :
    List DNSRecord → List DNSZone → Except String (List DNSRecord)
  | records, [] => .ok records
  | records, zone :: rest =>
    if zone.name = name then
      match api.getDNSRecords zone.id with
      | .error e => .error e
      | .ok rs => collectZoneRecords api name (records ++ rs) rest
    else collectZoneRecords api name records rest

/-- `getRecords(api, name)`: lists all zones visible to the credential and
concatenates the record lists of every zone whose name equals `name`
(`if err != nil` checks embedded as matches on the `Except`). -/
def getRecords (api : NetlifyAPI) (name : String) : Except String (List DNSRecord) :=
  match api.getDNSZones with
  | .error e => .error e
  | .ok zoneList => collectZoneRecords api name [] zoneList

/-- The conversion loop of `GetZoneRecords`: convert each native record,
propagating the first conversion error. -/
def convertRecords (domain : String) : List DNSRecord → Except String (List RecordConfig)
  | [] => .ok []
  | r :: rest =>
    match recordToNative domain r with
    | .error e => .error e
    | .ok rc =>
      match convertRecords domain rest with
      | .error e => .error e
      | .ok rcs => .ok (rc :: rcs)

/-- `GetZoneRecords(domain)`: fetch the native records of the zone and
convert them to the canonical model. -/
def getZoneRecords (api : NetlifyAPI) (domain : String) : Except String (List RecordConfig) :=
  match getRecords api domain with
  | .error e => .error e
  | .ok records => convertRecords domain records

/-! ## Correction generation -/

/-- The deferred provider call captured by a correction's closure at
construction time: the record identifier for a delete, the full creation
request for a create. -/
inductive APICall where
  | deleteDNSRecord (id : String)
  | createDNSRecord (req : DNSRecordCreate)
  deriving Repr, DecidableEq

/-- `models.Correction`: a human-readable description and one deferred
provider call (the Go closure, embedded by the payload it captures). -/
structure Correction where
  msg : String
  F : APICall
  deriving Repr, DecidableEq

/-- `diff.Correlation` (package `pkg/diff`, not under src/): one diff entry,
with the observed record (`Existing`, carrying its native original) and/or
the desired record (`Desired`). -/
structure Correlation where
  existing : Option RecordConfig := none
  desired : Option RecordConfig := none
  deriving Repr, DecidableEq

/-- Modelled from the spec: `diff.Correlation.String()` (package `pkg/diff`
is not under src/), the human-readable description of one diff entry used
in correction messages. -/
def Correlation.str (m : Correlation) : String :=
  match m.existing, m.desired with
  | some e, none => "- DELETE " ++ e.rtype ++ " " ++ e.name
  | none, some d => "+ CREATE " ++ d.rtype ++ " " ++ d.name
  | some e, some d => "± MODIFY " ++ e.rtype ++ " " ++ e.name ++ " -> " ++ d.rtype ++ " " ++ d.name
  | none, none => ""

/-- `m.Existing.Original.(*netlifyModels.DNSRecord).ID`: the provider
identifier of the native record behind a delete/modify entry. The Go type
assertion panics when `Existing` or its `Original` is nil; the diff
contract guarantees both are set on delete and modify entries, and the
embedding returns `""` on the (never-exercised) nil paths. -/
def Correlation.origID (m : Correlation) : String :=
  match m.existing with
  | some rc =>
    match rc.original with
    | some r => r.id
    | none => ""
  | none => ""

/-- `m.Desired` of a create/modify entry (set by the diff contract;
`RecordConfig`'s zero value on the never-exercised nil path). -/
def Correlation.des (m : Correlation) : RecordConfig :=
  match m.desired with
  | some rc => rc
  | none => {}

/-- The correction built in the delete loop: message with the record id
appended, deferred `DeleteDNSRecord` call capturing that id. -/
def mkDeleteCorrection (m : Correlation) : Correction :=
  { msg := m.str ++ ", Netlify DNSZoneID: " ++ m.origID
    F := .deleteDNSRecord m.origID }

/-- The correction built in the create loop: deferred `CreateDNSRecord`
call capturing the request built by `toReq` from the entry's desired
record. -/
def mkCreateCorrection (dcName : String) (m : Correlation) : Correction :=
  { msg := m.str
    F := .createDNSRecord (toReq dcName m.des) }

/-- The delete half of a modify entry. -/
def mkModifyDelete (m : Correlation) : Correction :=
  { msg := m.str
    F := .deleteDNSRecord m.origID }

/-- The create half of a modify entry. -/
def mkModifyCreate (dcName : String) (m : Correlation) : Correction :=
  { msg := m.str
    F := .createDNSRecord (toReq dcName m.des) }

/-- The result of `differ.IncrementalDiff`: the unchanged, to-create,
to-delete and to-modify partitions. -/
structure DiffResult where
  unchanged : List Correlation := []
  create : List Correlation := []
  delete : List Correlation := []
  modify : List Correlation := []

/-- The three correction-building loops of `GetDomainCorrections`, each
appending to the shared `corrections` slice: first the delete loop, then
the create loop, then the modify loop appending a delete/create pair per
entry. -/
def buildCorrections (dcName : String) (res : DiffResult) : List Correction :=
  let corrections : List Correction := []
  let corrections := res.delete.foldl (fun cs m => cs ++ [mkDeleteCorrection m]) corrections
  let corrections := res.create.foldl (fun cs m => cs ++ [mkCreateCorrection dcName m]) corrections
  let corrections := res.modify.foldl
    (fun cs m => cs ++ [mkModifyDelete m, mkModifyCreate dcName m]) corrections
  corrections

/-- `GetDomainCorrections(dc)`: fetch and convert the zone's records,
run the external differ on them (`diff.New(dc).IncrementalDiff`, package
`pkg/diff` not under src/, taken as a parameter), and build the correction
list. `models.PostProcessRecords` and `txtutil.SplitSingleLongTxt`
(normalization packages not under src/) act before the differ and are
absorbed into the `differ` parameter. -/
def getDomainCorrections (api : NetlifyAPI) (dcName : String)
    (differ : List RecordConfig → Except String DiffResult) :
    Except String (List Correction) :=
  match getZoneRecords api dcName with
  | .error e => .error e
  | .ok existingRecords =>
    match differ existingRecords with
    | .error e => .error e
    | .ok res => .ok (buildCorrections dcName res)

/-! ## Structure of the correction list -/

/-- Whether a correction's deferred call is a `DeleteDNSRecord` call. -/
def Correction.isDel (c : Correction) : Bool :=
  match c.F with
  | .deleteDNSRecord _ => true
  | .createDNSRecord _ => false

/-- Whether a correction's deferred call is a `CreateDNSRecord` call. -/
def Correction.isCre (c : Correction) : Bool :=
  match c.F with
  | .deleteDNSRecord _ => false
  | .createDNSRecord _ => true

/-- The ordering property claimed for the whole correction list: every
correction holding a delete call sits strictly before every correction
holding a create call. -/
def allDeletesBeforeAllCreates (l : List Correction) : Prop :=
  ∀ i j : Fin l.length,
    (l.get i).isDel = true → (l.get j).isCre = true → (i : Nat) < (j : Nat)

instance (l : List Correction) : Decidable (allDeletesBeforeAllCreates l) :=
  inferInstanceAs (Decidable (∀ i j : Fin l.length,
    (l.get i).isDel = true → (l.get j).isCre = true → (i : Nat) < (j : Nat)))

/-- An MX canonical record whose preference is stored only in
`MxPreference` (as a desired record from the configuration would be). -/
def mxOnlyRC (p : Nat) : RecordConfig :=
  { rtype := "MX", name := "mail", target := "mx.example.com.", mxPreference := p }

/-- The target-normalization rule exactly as the specification words it
(spec §4.1), for comparison with `recordToNative`: rewrite `"@"` to the
zone name, rewrite bare `"."` to the empty string, and only in all other
cases append a trailing dot. -/
def specTargetNormalization (domain value : String) : String :=
  if value = "@" then domain
  else if value = "." then ""
  else value ++ "."

/-! ## Concrete fixtures -/

/-- A managed native record with neutral fields, for building concrete
inputs. -/
def baseRecord : DNSRecord :=
  { id := "", hostname := "", rtype := "", value := "", ttl := 3600,
    priority := 0, weight := 0, port := 0, flag := 0, tag := "", managed := true }

/-- Observed native record: A `app` → `9.9.9.9`. -/
def obsARecord : DNSRecord :=
  { baseRecord with
    id := "rec-a"
    hostname := "app.example.com"
    rtype := "A"
    value := "9.9.9.9" }

/-- Observed canonical record derived from `obsARecord`. -/
def obsARC : RecordConfig :=
  { rtype := "A", name := "app", target := "9.9.9.9", ttl := 3600,
    original := some obsARecord }

/-- Desired canonical record: CNAME `app` → `host.example.com.`. -/
def desCnameRC : RecordConfig :=
  { rtype := "CNAME", name := "app", target := "host.example.com.", ttl := 300 }

/-- Desired canonical record: A `www` → `1.2.3.4`. -/
def desWwwRC : RecordConfig :=
  { rtype := "A", name := "www", target := "1.2.3.4", ttl := 300 }

/-- Observed native record: A `old` → `5.6.7.8`. -/
def obsOldRecord : DNSRecord :=
  { baseRecord with
    id := "rec-old"
    hostname := "old.example.com"
    rtype := "A"
    value := "5.6.7.8" }

/-- Observed canonical record derived from `obsOldRecord`. -/
def obsOldRC : RecordConfig :=
  { rtype := "A", name := "old", target := "5.6.7.8", ttl := 3600,
    original := some obsOldRecord }

/-- Modify diff entry: observed A `app` replaced by desired CNAME `app`. -/
def modifyAppEntry : Correlation :=
  { existing := some obsARC, desired := some desCnameRC }

/-- Create diff entry: desired A `www`. -/
def createWwwEntry : Correlation :=
  { desired := some desWwwRC }

/-- Delete diff entry: observed A `old`. -/
def deleteOldEntry : Correlation :=
  { existing := some obsOldRC }

/-- Diff result with one pure create and one modify entry. -/
def c1CexDiff : DiffResult :=
  { create := [createWwwEntry], modify := [modifyAppEntry] }

/-- Diff result with a single modify entry (the CNAME-for-A scenario). -/
def c2Diff : DiffResult :=
  { modify := [modifyAppEntry] }

/-- Diff result with one delete, one create and one modify entry. -/
def c8Diff : DiffResult :=
  { delete := [deleteOldEntry], create := [createWwwEntry], modify := [modifyAppEntry] }

/-- An API with one empty zone (every call succeeds). -/
def c5API : NetlifyAPI :=
  { getDNSZones := .ok [{ id := "zone-1", name := "example.com" }]
    getDNSRecords := fun _ => .ok [] }

/-- A native record flagged as not managed by the provider. -/
def c6Record : DNSRecord :=
  { baseRecord with
    id := "rec-unmanaged"
    hostname := "infra.example.com"
    rtype := "NETLIFY"
    value := "x"
    managed := false }

/-- An API whose matching zone holds one unmanaged record. -/
def c6API : NetlifyAPI :=
  { getDNSZones := .ok [{ id := "zone-1", name := "example.com" }]
    getDNSRecords := fun _ => .ok [c6Record] }

/-- An API with one non-matching zone and one matching zone that resolves
to zero records. -/
def c7API : NetlifyAPI :=
  { getDNSZones := .ok [{ id := "zone-o", name := "other.com" },
      { id := "zone-e", name := "example.com" }]
    getDNSRecords := fun id => if id = "zone-e" then .ok [] else .ok [obsOldRecord] }

/-- An API whose zone list contains no zone named `example.com`. -/
def c7NoZoneAPI : NetlifyAPI :=
  { getDNSZones := .ok [{ id := "zone-o", name := "other.com" }]
    getDNSRecords := fun _ => .ok [obsOldRecord] }

/-- Per-zone record lists for the duplicate-zone-name scenario. -/
def c10F : String → List DNSRecord := fun id =>
  if id = "zone-1" then [obsARecord]
  else if id = "zone-3" then [obsOldRecord]
  else []

/-- An API with two zones named `example.com` and one named `Example.com`
(differing only in case). -/
def c10API : NetlifyAPI :=
  { getDNSZones := .ok [{ id := "zone-1", name := "example.com" },
      { id := "zone-2", name := "Example.com" },
      { id := "zone-3", name := "example.com" }]
    getDNSRecords := fun id => .ok (c10F id) }

/-- A managed native CNAME record whose value is the bare dot. -/
def c3DotRecord : DNSRecord :=
  { baseRecord with
    id := "rec-dot"
    hostname := "a.example.com"
    rtype := "CNAME"
    value := "." }

/-- A managed native CNAME record whose value is the zone-apex sentinel. -/
def c3AtRecord : DNSRecord :=
  { baseRecord with
    id := "rec-at"
    hostname := "b.example.com"
    rtype := "CNAME"
    value := "@" }

/-- A managed native SRV record with nonzero weight and port. -/
def c4SrvRecord : DNSRecord :=
  { baseRecord with
    id := "rec-srv"
    hostname := "sipdir.example.com"
    rtype := "SRV"
    value := "sipserver.example.com"
    priority := 10
    weight := 5
    port := 443 }

/-- A loop appending one element per entry is a `map`. -/
theorem foldl_append_one {α β : Type} (f : α → β) (l : List α) (init : List β) :
    l.foldl (fun cs m => cs ++ [f m]) init = init ++ l.map f := by
  induction l generalizing init with
  | nil => simp
  | cons a l ih => simp [ih]

/-- A loop appending two elements per entry is a `flatMap` of pairs. -/
theorem foldl_append_two {α β : Type} (f g : α → β) (l : List α) (init : List β) :
    l.foldl (fun cs m => cs ++ [f m, g m]) init
      = init ++ l.flatMap (fun m => [f m, g m]) := by
  induction l generalizing init with
  | nil => simp
  | cons a l ih => simp [ih]

/-- The three loops of `GetDomainCorrections` produce: the delete-partition
corrections, then the create-partition corrections, then one delete/create
pair per modify entry. -/
theorem buildCorrections_eq (dcName : String) (res : DiffResult) :
    buildCorrections dcName res
      = res.delete.map mkDeleteCorrection
          ++ res.create.map (mkCreateCorrection dcName)
          ++ res.modify.flatMap (fun m => [mkModifyDelete m, mkModifyCreate dcName m]) := by
  simp [buildCorrections, foldl_append_one, foldl_append_two]

/-- Even positions of a pair `flatMap` hold the first components. -/
theorem flatMap_pair_getElem_even {α β : Type} (f g : α → β) (l : List α) (k : Nat) :
    (l.flatMap (fun m => [f m, g m]))[2 * k]? = (l[k]?).map f := by
  induction l generalizing k with
  | nil => simp
  | cons a l ih =>
    cases k with
    | zero => simp
    | succ k =>
      have h2 : 2 * (k + 1) = 2 * k + 1 + 1 := by ring
      simp only [List.flatMap_cons, List.cons_append, List.nil_append, h2,
        List.getElem?_cons_succ, ih]

/-- Odd positions of a pair `flatMap` hold the second components. -/
theorem flatMap_pair_getElem_odd {α β : Type} (f g : α → β) (l : List α) (k : Nat) :
    (l.flatMap (fun m => [f m, g m]))[2 * k + 1]? = (l[k]?).map g := by
  induction l generalizing k with
  | nil => simp
  | cons a l ih =>
    cases k with
    | zero => simp
    | succ k =>
      have h2 : 2 * (k + 1) + 1 = 2 * k + 1 + 1 + 1 := by ring
      simp only [List.flatMap_cons, List.cons_append, List.nil_append, h2,
        List.getElem?_cons_succ, ih]

/-- Position `i` of the correction list, for `i` inside the delete batch. -/
theorem buildCorrections_getElem_del (dcName : String) (res : DiffResult) (i : Nat)
    (hi : i < res.delete.length) :
    (buildCorrections dcName res)[i]? = (res.delete[i]?).map mkDeleteCorrection := by
  rw [buildCorrections_eq, List.append_assoc,
    List.getElem?_append_left (by simpa using hi), List.getElem?_map]

/-- Position `delete.length + i` of the correction list, for `i` inside the
create batch. -/
theorem buildCorrections_getElem_cre (dcName : String) (res : DiffResult) (i : Nat)
    (hi : i < res.create.length) :
    (buildCorrections dcName res)[res.delete.length + i]?
      = (res.create[i]?).map (mkCreateCorrection dcName) := by
  rw [buildCorrections_eq, List.append_assoc,
    List.getElem?_append_right (by simp), List.getElem?_append_left (by simpa using hi)]
  simp

/-- Position `delete.length + create.length + 2 * k`: the delete half of
the `k`-th modify entry. -/
theorem buildCorrections_getElem_mod_del (dcName : String) (res : DiffResult) (k : Nat) :
    (buildCorrections dcName res)[res.delete.length + res.create.length + 2 * k]?
      = (res.modify[k]?).map mkModifyDelete := by
  rw [buildCorrections_eq, List.append_assoc, List.getElem?_append_right (by simp; omega)]
  have hlen : res.delete.length + res.create.length + 2 * k - (res.delete.length) =
      res.create.length + 2 * k := by omega
  rw [List.length_map, hlen, List.getElem?_append_right (by simp)]
  have hlen2 : res.create.length + 2 * k - res.create.length = 2 * k := by omega
  rw [List.length_map, hlen2, flatMap_pair_getElem_even]

/-- Position `delete.length + create.length + 2 * k + 1`: the create half
of the `k`-th modify entry. -/
theorem buildCorrections_getElem_mod_cre (dcName : String) (res : DiffResult) (k : Nat) :
    (buildCorrections dcName res)[res.delete.length + res.create.length + 2 * k + 1]?
      = (res.modify[k]?).map (mkModifyCreate dcName) := by
  rw [buildCorrections_eq, List.append_assoc, List.getElem?_append_right (by simp; omega)]
  have hlen : res.delete.length + res.create.length + 2 * k + 1 - (res.delete.length) =
      res.create.length + (2 * k + 1) := by omega
  rw [List.length_map, hlen, List.getElem?_append_right (by simp)]
  have hlen2 : res.create.length + (2 * k + 1) - res.create.length = 2 * k + 1 := by omega
  rw [List.length_map, hlen2, flatMap_pair_getElem_odd]

/-! ## Claims -/

/-- **C1** (corrected): the claim "all deletes globally before all creates"
fails — `GetDomainCorrections` appends the modify pairs after the pure
creates, so the delete half of a modify entry follows every pure create
correction. Concretely, with one pure create and one modify the list is
create, delete, create. -/
theorem c1_counterexample :
    ¬ allDeletesBeforeAllCreates (buildCorrections "example.com" c1CexDiff) := by
  decide

/-- **C1** (amended): the correction list of `GetDomainCorrections` is the
delete-partition corrections, then the create-partition corrections, then
one delete/create pair per modify entry in order; the delete-loop and
modify-delete corrections are delete calls and the create-loop and
modify-create corrections are create calls. -/
theorem c1_batch_order (dcName : String) (res : DiffResult) :
    buildCorrections dcName res
      = res.delete.map mkDeleteCorrection
          ++ res.create.map (mkCreateCorrection dcName)
          ++ res.modify.flatMap (fun m => [mkModifyDelete m, mkModifyCreate dcName m])
    ∧ ∀ m : Correlation,
        (mkDeleteCorrection m).isDel = true
        ∧ (mkModifyDelete m).isDel = true
        ∧ (mkCreateCorrection dcName m).isCre = true
        ∧ (mkModifyCreate dcName m).isCre = true :=
  ⟨buildCorrections_eq dcName res, fun _ => ⟨rfl, rfl, rfl, rfl⟩⟩

/-- **C2**: for every modify entry `k` of the diff result, the delete
correction of that entry sits at position `delete.length + create.length
+ 2k` of the list returned by `GetDomainCorrections` and the corresponding
create correction right after it at position `... + 2k + 1`, strictly
later; this holds simultaneously for all modify entries. -/
theorem c2_modify_delete_precedes_create (dcName : String) (res : DiffResult)
    (k : Nat) (hk : k < res.modify.length) :
    (buildCorrections dcName res)[res.delete.length + res.create.length + 2 * k]?
        = (res.modify[k]?).map mkModifyDelete
    ∧ (buildCorrections dcName res)[res.delete.length + res.create.length + 2 * k + 1]?
        = (res.modify[k]?).map (mkModifyCreate dcName)
    ∧ (res.modify[k]?).isSome = true := by
  refine ⟨buildCorrections_getElem_mod_del dcName res k,
    buildCorrections_getElem_mod_cre dcName res k, ?_⟩
  simp [List.getElem?_eq_getElem hk]

/-- **C2** witness: the claim's scenario — desired CNAME `app` →
`host.example.com.` against observed A `app` → `9.9.9.9`, one modify entry
— places the delete of the A record (id `rec-a`) at position 0, before the
create of the CNAME record at position 1. -/
theorem c2_witness :
    0 < c2Diff.modify.length
    ∧ (buildCorrections "example.com" c2Diff)[0]? = some (mkModifyDelete modifyAppEntry)
    ∧ (buildCorrections "example.com" c2Diff)[1]?
        = some (mkModifyCreate "example.com" modifyAppEntry)
    ∧ (mkModifyDelete modifyAppEntry).F = .deleteDNSRecord "rec-a"
    ∧ (mkModifyCreate "example.com" modifyAppEntry).F
        = .createDNSRecord (toReq "example.com" desCnameRC) := by
  have h := c2_modify_delete_precedes_create "example.com" c2Diff 0 (by decide)
  exact ⟨by decide, h.1, h.2.1, rfl, rfl⟩

/-- **C8**: each correction's deferred call carries the payload computed
from its own diff entry: the `i`-th delete-loop correction deletes the
`i`-th delete entry's record id, the `i`-th create-loop correction creates
the request built from the `i`-th create entry, and the `i`-th modify pair
carries the `i`-th modify entry's id and request. -/
theorem c8_payload_capture (dcName : String) (res : DiffResult) :
    (∀ i, i < res.delete.length →
      ((buildCorrections dcName res)[i]?).map Correction.F
        = (res.delete[i]?).map (fun m => APICall.deleteDNSRecord m.origID))
    ∧ (∀ i, i < res.create.length →
      ((buildCorrections dcName res)[res.delete.length + i]?).map Correction.F
        = (res.create[i]?).map (fun m => APICall.createDNSRecord (toReq dcName m.des)))
    ∧ (∀ i, i < res.modify.length →
      ((buildCorrections dcName res)[res.delete.length + res.create.length + 2 * i]?).map
          Correction.F
        = (res.modify[i]?).map (fun m => APICall.deleteDNSRecord m.origID)
      ∧ ((buildCorrections dcName res)[res.delete.length + res.create.length
            + 2 * i + 1]?).map Correction.F
        = (res.modify[i]?).map (fun m => APICall.createDNSRecord (toReq dcName m.des))) := by
  refine ⟨fun i hi => ?_, fun i hi => ?_, fun i _ => ⟨?_, ?_⟩⟩
  · rw [buildCorrections_getElem_del dcName res i hi]
    cases res.delete[i]? <;> rfl
  · rw [buildCorrections_getElem_cre dcName res i hi]
    cases res.create[i]? <;> rfl
  · rw [buildCorrections_getElem_mod_del dcName res i]
    cases res.modify[i]? <;> rfl
  · rw [buildCorrections_getElem_mod_cre dcName res i]
    cases res.modify[i]? <;> rfl

/-- **C8** witness: with one delete, one create and one modify entry, the
corrections at positions 0, 1, 2 and 3 carry exactly the payloads of their
own entries. -/
theorem c8_witness :
    0 < c8Diff.delete.length ∧ 0 < c8Diff.create.length ∧ 0 < c8Diff.modify.length
    ∧ ((buildCorrections "example.com" c8Diff)[0]?).map Correction.F
        = (c8Diff.delete[0]?).map (fun m => APICall.deleteDNSRecord m.origID)
    ∧ ((buildCorrections "example.com" c8Diff)[c8Diff.delete.length + 0]?).map Correction.F
        = (c8Diff.create[0]?).map (fun m => APICall.createDNSRecord (toReq "example.com" m.des))
    ∧ ((buildCorrections "example.com" c8Diff)[c8Diff.delete.length + c8Diff.create.length
          + 2 * 0]?).map Correction.F
        = (c8Diff.modify[0]?).map (fun m => APICall.deleteDNSRecord m.origID)
    ∧ ((buildCorrections "example.com" c8Diff)[c8Diff.delete.length + c8Diff.create.length
          + 2 * 0 + 1]?).map Correction.F
        = (c8Diff.modify[0]?).map (fun m => APICall.createDNSRecord (toReq "example.com" m.des)) := by
  have h := c8_payload_capture "example.com" c8Diff
  exact ⟨by decide, by decide, by decide, h.1 0 (by decide), h.2.1 0 (by decide),
    (h.2.2 0 (by decide)).1, (h.2.2 0 (by decide)).2⟩

/-- **C9**: `toReq` takes the request's `Priority` from the canonical
record's `SrvPriority`, never from `MxPreference`: changing `MxPreference`
leaves the request unchanged, and a record whose preference lives only in
`MxPreference` yields `Priority` zero. -/
theorem c9_toReq_priority_from_srvPriority (dcName : String) (rc : RecordConfig) (p : Nat) :
    (toReq dcName rc).priority = Int.ofNat rc.srvPriority
    ∧ toReq dcName { rc with mxPreference := p } = toReq dcName rc
    ∧ (toReq dcName (mxOnlyRC p)).priority = 0 :=
  ⟨rfl, rfl, rfl⟩

/-- The conversion loop fails with the message of the first unmanaged
record. -/
theorem convertRecords_error_of_unmanaged (domain : String) (rs : List DNSRecord)
    (r' : DNSRecord) (h : rs.find? (fun x => !x.managed) = some r') :
    convertRecords domain rs = .error (r'.hostname ++ " is not managed by Netlify") := by
  induction rs with
  | nil => simp [List.find?] at h
  | cons a rest ih =>
    cases hma : a.managed with
    | false =>
      have hfind : (a :: rest).find? (fun x => !x.managed) = some a :=
        List.find?_cons_of_pos _ (by simp [hma])
      rw [hfind] at h
      cases h
      simp [convertRecords, recordToNative, hma]
    | true =>
      have hfind : (a :: rest).find? (fun x => !x.managed)
          = rest.find? (fun x => !x.managed) :=
        List.find?_cons_of_neg _ (by simp [hma])
      rw [hfind] at h
      simp [convertRecords, recordToNative, hma, ih h]

/-- If every matching zone resolves to zero records, the zone loop returns
its accumulator unchanged. -/
theorem collectZoneRecords_all_empty (api : NetlifyAPI) (name : String)
    (zones : List DNSZone)
    (h : ∀ z ∈ zones, z.name = name → api.getDNSRecords z.id = .ok [])
    (acc : List DNSRecord) :
    collectZoneRecords api name acc zones = .ok acc := by
  induction zones generalizing acc with
  | nil => rfl
  | cons z rest ih =>
    by_cases hz : z.name = name
    · have hrec := h z (by simp) hz
      simp only [collectZoneRecords, if_pos hz, hrec, List.append_nil]
      exact ih (fun z' hz' hn => h z' (List.mem_cons_of_mem z hz') hn) acc
    · simp only [collectZoneRecords, if_neg hz]
      exact ih (fun z' hz' hn => h z' (List.mem_cons_of_mem z hz') hn) acc

/-- When every records-list call succeeds, the zone loop concatenates, in
zone-list order, the record lists of exactly the zones whose name equals
the requested name. -/
theorem collectZoneRecords_total (api : NetlifyAPI) (name : String)
    (f : String → List DNSRecord)
    (hap : api.getDNSRecords = fun id => .ok (f id))
    (zones : List DNSZone) (acc : List DNSRecord) :
    collectZoneRecords api name acc zones
      = .ok (acc ++ (zones.filter (fun z => z.name == name)).flatMap (fun z => f z.id)) := by
  induction zones generalizing acc with
  | nil => simp [collectZoneRecords]
  | cons z rest ih =>
    by_cases hz : z.name = name
    · simp only [collectZoneRecords, if_pos hz, hap]
      rw [ih]
      simp [List.filter_cons, hz, List.append_assoc]
    · simp only [collectZoneRecords, if_neg hz]
      rw [ih]
      simp [List.filter_cons, hz]

/-- **C5**: an error from the set-difference primitive is surfaced
unchanged by `GetDomainCorrections`, and no correction list is produced. -/
theorem c5_differ_error_aborts (api : NetlifyAPI) (dcName : String)
    (dif : List RecordConfig → Except String DiffResult)
    (rs : List RecordConfig) (e : String)
    (h1 : getZoneRecords api dcName = .ok rs) (h2 : dif rs = .error e) :
    getDomainCorrections api dcName dif = .error e := by
  simp [getDomainCorrections, h1, h2]

/-- **C5** witness: a differ failing with `diff failed` on the empty
observed set makes `GetDomainCorrections` return exactly that error. -/
theorem c5_witness :
    getZoneRecords c5API "example.com" = .ok []
    ∧ getDomainCorrections c5API "example.com"
        (fun _ => .error "diff failed") = .error "diff failed" :=
  ⟨rfl, c5_differ_error_aborts c5API "example.com"
    (fun _ => .error "diff failed") [] "diff failed" rfl rfl⟩

/-- **C6**: if the fetched native records contain one flagged as not
managed, `GetZoneRecords` fails with an error naming an unmanaged record's
hostname (the first such record) and returns no records. -/
theorem c6_unmanaged_fails_fetch (api : NetlifyAPI) (domain : String)
    (rs : List DNSRecord) (r : DNSRecord)
    (h1 : getRecords api domain = .ok rs) (h2 : r ∈ rs) (h3 : r.managed = false) :
    ∃ r', r'.managed = false ∧ r' ∈ rs
      ∧ getZoneRecords api domain = .error (r'.hostname ++ " is not managed by Netlify") := by
  have hsome : (rs.find? (fun x => !x.managed)).isSome :=
    List.find?_isSome.mpr ⟨r, h2, by simp [h3]⟩
  obtain ⟨r', hr'⟩ := Option.isSome_iff_exists.mp hsome
  refine ⟨r', ?_, List.mem_of_find?_eq_some hr', ?_⟩
  · have hp := List.find?_some hr'
    simpa using hp
  · simp [getZoneRecords, h1, convertRecords_error_of_unmanaged domain rs r' hr']

/-- **C6** witness: a zone holding one unmanaged record makes the whole
fetch fail with the message naming that record's hostname. -/
theorem c6_witness :
    getRecords c6API "example.com" = .ok [c6Record]
    ∧ c6Record.managed = false
    ∧ ∃ r', r'.managed = false ∧ r' ∈ [c6Record]
        ∧ getZoneRecords c6API "example.com"
            = .error (r'.hostname ++ " is not managed by Netlify") := by
  have h1 : getRecords c6API "example.com" = .ok [c6Record] := rfl
  exact ⟨h1, rfl,
    c6_unmanaged_fails_fetch c6API "example.com" [c6Record] c6Record h1 (by simp) rfl⟩

/-- **C7**: when every zone whose name equals the requested domain resolves
to zero records — in particular when no zone matches at all — `getRecords`
and `GetZoneRecords` return the empty record set without error. -/
theorem c7_missing_or_empty_zone (api : NetlifyAPI) (domain : String)
    (zones : List DNSZone)
    (h1 : api.getDNSZones = .ok zones)
    (h2 : ∀ z ∈ zones, z.name = domain → api.getDNSRecords z.id = .ok []) :
    getRecords api domain = .ok [] ∧ getZoneRecords api domain = .ok [] := by
  have hg : getRecords api domain = .ok [] := by
    simp [getRecords, h1, collectZoneRecords_all_empty api domain zones h2 []]
  exact ⟨hg, by simp [getZoneRecords, hg, convertRecords]⟩

/-- **C7** witness: a zone list without any `example.com` zone yields the
empty set without error, and so does one whose `example.com` zone resolves
to zero records. -/
theorem c7_witness :
    getZoneRecords c7NoZoneAPI "example.com" = .ok []
    ∧ getRecords c7API "example.com" = .ok []
    ∧ getZoneRecords c7API "example.com" = .ok [] := by
  have hnz : ∀ z ∈ [({ id := "zone-o", name := "other.com" } : DNSZone)],
      z.name = "example.com" → c7NoZoneAPI.getDNSRecords z.id = .ok [] := by
    intro z hz hn
    fin_cases hz
    exact absurd hn (by decide)
  have hez : ∀ z ∈ [({ id := "zone-o", name := "other.com" } : DNSZone),
      { id := "zone-e", name := "example.com" }],
      z.name = "example.com" → c7API.getDNSRecords z.id = .ok [] := by
    intro z hz hn
    fin_cases hz
    · exact absurd hn (by decide)
    · rfl
  have h1 := c7_missing_or_empty_zone c7NoZoneAPI "example.com" _ rfl hnz
  have h2 := c7_missing_or_empty_zone c7API "example.com" _ rfl hez
  exact ⟨h1.2, h2.1, h2.2⟩

/-- **C10**: with every records-list call succeeding, `getRecords` returns
the concatenation, in zone-list order, of the record lists of all zones
whose name exactly equals the requested name (string equality, hence
case-sensitive; the loop does not stop at the first match). -/
theorem c10_concatenates_matching_zones (api : NetlifyAPI) (name : String)
    (zones : List DNSZone) (f : String → List DNSRecord)
    (h1 : api.getDNSZones = .ok zones)
    (h2 : api.getDNSRecords = fun id => .ok (f id)) :
    getRecords api name
      = .ok ((zones.filter (fun z => z.name == name)).flatMap (fun z => f z.id)) := by
  simp [getRecords, h1, collectZoneRecords_total api name f h2 zones []]

/-- **C10** witness: of three zones named `example.com`, `Example.com`,
`example.com`, the fetch concatenates the records of the first and third
(in order) and skips the case-differing second. -/
theorem c10_witness :
    c10API.getDNSRecords = (fun id => .ok (c10F id))
    ∧ getRecords c10API "example.com" = .ok [obsARecord, obsOldRecord] := by
  have h := c10_concatenates_matching_zones c10API "example.com" _ c10F rfl rfl
  refine ⟨rfl, ?_⟩
  rw [h]
  rfl

/-- **C3** (corrected): the claim's normalization rule, read literally,
rewrites a bare `"."` target to the empty string; the code appends the
trailing dot in every relational case, so a CNAME value `"."` in zone
`example.com` yields canonical target `"."`, not `""` (and value `"@"`
yields `"example.com."`, not the bare zone name). -/
theorem c3_counterexample :
    (recordToNative "example.com" c3DotRecord).map (fun t => t.target) = .ok "."
    ∧ specTargetNormalization "example.com" "." = ""
    ∧ (("." : String) = "" → False)
    ∧ (recordToNative "example.com" c3AtRecord).map (fun t => t.target) = .ok "example.com."
    ∧ specTargetNormalization "example.com" "@" = "example.com" := by
  refine ⟨rfl, rfl, by decide, rfl, rfl⟩

/-- **C3** (amended): for relational record types the native value is
first rewritten — `"@"` to the zone name, bare `"."` to the empty string —
and then a trailing dot is appended in every case; in particular `"@"` in
zone `example.com` yields `"example.com."` and bare `"."` yields `"."`. -/
theorem c3_fqdn_normalization (domain : String) (r : DNSRecord)
    (hm : r.managed = true)
    (ht : r.rtype = "CNAME" ∨ r.rtype = "MX" ∨ r.rtype = "NS" ∨ r.rtype = "SRV") :
    (recordToNative domain r).map (fun t => t.target)
      = .ok ((if r.value = "@" then domain
              else if r.value = "." then ""
              else r.value) ++ ".") := by
  simp [recordToNative, hm, ht, Except.map]

/-- **C3** witness: the spec's own example — a native CNAME target `"@"`
for zone `example.com` translates to canonical target `example.com.`. -/
theorem c3_witness :
    c3AtRecord.managed = true
    ∧ c3AtRecord.rtype = "CNAME"
    ∧ (recordToNative "example.com" c3AtRecord).map (fun t => t.target)
        = .ok "example.com." := by
  have h := c3_fqdn_normalization "example.com" c3AtRecord rfl (Or.inl rfl)
  exact ⟨rfl, rfl, by simpa using h⟩

/-- **C4** (code bug): round-tripping a native SRV record with weight 5 and
port 443 through `recordToNative` and `toReq` produces a creation request
with weight 0 and port 0 — `recordToNative` never reads the native
`Weight`/`Port` fields (and `toReq` sends no TTL), so the round trip does
not reproduce the original semantic fields. -/
theorem c4_srv_roundtrip_drops_fields :
    c4SrvRecord.weight = 5 ∧ c4SrvRecord.port = 443
    ∧ (recordToNative "example.com" c4SrvRecord).map
        (fun t => ((toReq "example.com" t).weight, (toReq "example.com" t).port))
      = .ok (0, 0)
    ∧ (recordToNative "example.com" c4SrvRecord).map
        (fun t => (toReq "example.com" t).priority)
      = .ok 10 := by
  exact ⟨rfl, rfl, rfl, rfl⟩

end Netlify
